import Mathlib

/-!
Shallow embedding of `tronlib.py` (class `TronBoard`): the two-player
light-cycle board, its constructor, `valid_move` and `update`, together
with proofs about the claims of the specification.

Modelling decisions:
* the numpy grid `self.board` becomes a total function `Pos → Nat`
  holding the integer cell codes of the source;
* numpy indexing `board[tuple(p)]` accepts any coordinate in
  `[-dim, dim)` and wraps negatives (`npEff`); an out-of-range index
  raises `IndexError`, modelled by `Option` (`none` = exception);
* the numpy membership test `move in VALID_VECTORS` on a 2-D array is
  an elementwise any-match after broadcasting (`npContains`), exactly
  as numpy evaluates `(VALID_VECTORS == move).any()`;
* raising (`assert`, `ValueError`, `IndexError`) is modelled by
  returning `none`.
-/

/-- Cell code `TronBoard.EMPTY = 0`. -/
def EMPTY : Nat := 0

/-- Cell code `TronBoard.PLAYER1_POSITION = 1`. -/
def PLAYER1_POSITION : Nat := 1

/-- Cell code `TronBoard.PLAYER2_POSITION = 2`. -/
def PLAYER2_POSITION : Nat := 2

/-- Cell code `TronBoard.VISITED1 = 3`. -/
def VISITED1 : Nat := 3

/-- Cell code `TronBoard.VISITED2 = 4`. -/
def VISITED2 : Nat := 4

/-- A grid coordinate or movement vector `(x, y)`. -/
abbrev Pos := Int × Int

/-- The rows of the numpy array `TronBoard.VALID_VECTORS`. -/
def VALID_VECTORS : List Pos := [(0, 1), (0, -1), (1, 0), (-1, 0)]

/-- The Python expression `move in TronBoard.VALID_VECTORS`.  For a
2-D numpy array this is `(VALID_VECTORS == move).any()`: the comparison
broadcasts `move` over the rows and compares componentwise, so the
test is true iff SOME component of SOME row equals the corresponding
component of `move` — not row equality. -/
def npContains (move : Pos) : Bool :=
  VALID_VECTORS.any fun r => r.1 == move.1 || r.2 == move.2

/-- Pointwise functional write to a grid. -/
def gwrite (g : Pos → Nat) (p : Pos) (v : Nat) : Pos → Nat :=
  fun c => if c = p then v else g c

/-- The effective numpy index along an axis of length `d`: a negative
index in `[-d, 0)` wraps to `i + d`. -/
def npEff (d : Nat) (i : Int) : Int :=
  if i < 0 then i + d else i

/-- Whether numpy indexing `board[tuple(p)]` succeeds (no `IndexError`)
on an `n × m` array. -/
def npIndexable (n m : Nat) (p : Pos) : Prop :=
  -(n : Int) ≤ p.1 ∧ p.1 < (n : Int) ∧ -(m : Int) ≤ p.2 ∧ p.2 < (m : Int)

instance (n m : Nat) (p : Pos) : Decidable (npIndexable n m p) := by
  unfold npIndexable; infer_instance

/-- The numpy assignment `board[tuple(p)] = v` on an `n × m` array,
assuming the index is in range (negative indices wrap). -/
def npSet (n m : Nat) (g : Pos → Nat) (p : Pos) (v : Nat) : Pos → Nat :=
  gwrite g (npEff n p.1, npEff m p.2) v

/-- The state of `TronBoard`: grid dimensions (the numpy array shape),
the grid `self.board`, `self.gameover`, `self.winner`, the player
positions `self.p1`/`self.p2` and stored vectors `self.v1`/`self.v2`. -/
structure TronBoard where
  n : Nat
  m : Nat
  board : Pos → Nat
  gameover : Bool
  winner : Option Nat
  p1 : Pos
  p2 : Pos
  v1 : Pos
  v2 : Pos

/-- `TronBoard.__init__(n, m, p1, p2, v1, v2)`.  The Python code only
asserts `p1 != p2`, builds an all-zero grid and writes the two player
marks (`board[tuple(p1)] = 1` then `board[tuple(p2)] = 2`, wrapping
negative in-range indices, raising `IndexError` otherwise).  Directions
are NOT validated.  `none` models a raised exception. -/
def mkTronBoard (n m : Nat) (p1 p2 v1 v2 : Pos) : Option TronBoard :=
  if p1 = p2 then none
  else if npIndexable n m p1 ∧ npIndexable n m p2 then
    some { n := n, m := m,
           board := npSet n m (npSet n m (fun _ => EMPTY) p1 PLAYER1_POSITION)
                      p2 PLAYER2_POSITION,
           gameover := false, winner := none,
           p1 := p1, p2 := p2, v1 := v1, v2 := v2 }
  else none

/-- Body of `TronBoard.valid_move` over explicit dimensions and grid:
`False` when a coordinate is negative; `False` on `IndexError` (a
coordinate at least the dimension); otherwise `board[move] == EMPTY`. -/
def valid_move_aux (n m : Nat) (g : Pos → Nat) (move : Pos) : Bool :=
  if move.1 < 0 ∨ move.2 < 0 then false
  else if (n : Int) ≤ move.1 ∨ (m : Int) ≤ move.2 then false
  else g move == EMPTY

/-- `TronBoard.valid_move(self, move)`. -/
def TronBoard.valid_move (b : TronBoard) (move : Pos) : Bool :=
  valid_move_aux b.n b.m b.board move

/-- Lines 81–82 of `update`: mark both players' current cells as
visited (`board[tuple(self.p1)] = VISITED1`, then for `p2`). -/
def trailGrid (b : TronBoard) : Pos → Nat :=
  npSet b.n b.m (npSet b.n b.m b.board b.p1 VISITED1) b.p2 VISITED2

/-- The death test of lines 90 and 95:
`(not self.valid_move(p)) or self.board[tuple(p)] != EMPTY`
(the second disjunct is only reached when `valid_move` is true, so the
grid read there is in bounds). -/
def deadCheck (n m : Nat) (g : Pos → Nat) (p : Pos) : Bool :=
  !(valid_move_aux n m g p) || !(g p == EMPTY)

/-- Result of the per-player move evaluation (lines 84–99): final
grid, both positions, and the two death flags. -/
structure MoveOutcome where
  grid : Pos → Nat
  q1 : Pos
  q2 : Pos
  d1 : Bool
  d2 : Bool

/-- Lines 84–99 of `update`, exactly in source order: player 1's death
test runs on the trail-marked grid `g0`; if player 1 survives, their
destination is written BEFORE player 2's death test runs. -/
def movePhase (n m : Nat) (g0 : Pos → Nat) (p1 p2 p1n p2n : Pos) : MoveOutcome :=
  let d1 := deadCheck n m g0 p1n
  let g1 := if d1 then g0 else npSet n m g0 p1n PLAYER1_POSITION
  let q1 := if d1 then p1 else p1n
  let d2 := deadCheck n m g1 p2n
  let g2 := if d2 then g1 else npSet n m g1 p2n PLAYER2_POSITION
  let q2 := if d2 then p2 else p2n
  { grid := g2, q1 := q1, q2 := q2, d1 := d1, d2 := d2 }

/-- Componentwise addition `self.p1 + player1_move` (numpy broadcast). -/
def pAdd (p q : Pos) : Pos := (p.1 + q.1, p.2 + q.2)

/-- Lines 101–111 of `update`: `self.gameover` after the death flags
are inspected (`if p1_dead: gameover = True; ... elif p2_dead: ...`,
otherwise left as it was). -/
def goAfter (b : TronBoard) (o : MoveOutcome) : Bool :=
  if o.d1 || o.d2 then true else b.gameover

/-- Lines 101–111 of `update`: `self.winner` after the death flags are
inspected (untouched when nobody died this tick). -/
def winnerAfter (b : TronBoard) (o : MoveOutcome) : Option Nat :=
  if o.d1 then (if o.d2 then none else some 2)
  else if o.d2 then some 1 else b.winner

/-- Writing a `MoveOutcome` back into the board state, paired with the
return value `not self.gameover` of line 113. -/
def applyOutcome (b : TronBoard) (o : MoveOutcome) : TronBoard × Bool :=
  ({ b with board := o.grid, p1 := o.q1, p2 := o.q2,
            gameover := goAfter b o, winner := winnerAfter b o },
   !(goAfter b o))

/-- `TronBoard.update(self, player1_move, player2_move)`.
`none` models a raised exception (`ValueError` from validation, or
`IndexError` from the trail writes when a stored position is out of
numpy range).  Note: the source never checks `self.gameover`, and never
reassigns `self.v1`/`self.v2`. -/
def TronBoard.update (b : TronBoard) (m1 m2 : Option Pos) : Option (TronBoard × Bool) :=
  let pm1 := m1.getD b.v1
  let pm2 := m2.getD b.v2
  if npContains pm1 && npContains pm2 then
    let p1n := pAdd b.p1 pm1
    let p2n := pAdd b.p2 pm2
    if p1n = p2n then
      some ({ b with gameover := true, winner := none }, false)
    else if npIndexable b.n b.m b.p1 ∧ npIndexable b.n b.m b.p2 then
      some (applyOutcome b (movePhase b.n b.m (trailGrid b) b.p1 b.p2 p1n p2n))
    else none
  else none

/-- The definition of `movePhase` with the evaluation order the
specification describes in §4.1 step 7: BOTH death tests are evaluated
against the step-6 (trail-marked) grid `g0`, independently of each
other; each surviving player's destination cell is then written. -/
def movePhaseSpec (n m : Nat) (g0 : Pos → Nat) (p1 p2 p1n p2n : Pos) : MoveOutcome :=
  let d1 := deadCheck n m g0 p1n
  let d2 := deadCheck n m g0 p2n
  let g1 := if d1 then g0 else npSet n m g0 p1n PLAYER1_POSITION
  let g2 := if d2 then g1 else npSet n m g1 p2n PLAYER2_POSITION
  { grid := g2, q1 := if d1 then p1 else p1n, q2 := if d2 then p2 else p2n,
    d1 := d1, d2 := d2 }

/-- A position strictly inside the `n × m` grid (the specification's
`[0, width) × [0, height)`). -/
def properPos (n m : Nat) (p : Pos) : Prop :=
  0 ≤ p.1 ∧ p.1 < (n : Int) ∧ 0 ≤ p.2 ∧ p.2 < (m : Int)

instance (n m : Nat) (p : Pos) : Decidable (properPos n m p) := by
  unfold properPos; infer_instance

/-- A construction the specification calls valid: distinct in-bounds
start positions and unit-vector directions. -/
def SpecValidConfig (n m : Nat) (p1 p2 v1 v2 : Pos) : Prop :=
  p1 ≠ p2 ∧ properPos n m p1 ∧ properPos n m p2 ∧
    v1 ∈ VALID_VECTORS ∧ v2 ∈ VALID_VECTORS

instance (n m : Nat) (p1 p2 v1 v2 : Pos) :
    Decidable (SpecValidConfig n m p1 p2 v1 v2) := by
  unfold SpecValidConfig; infer_instance

/-- Board states reachable from a specification-valid construction by
any sequence of non-raising `update` calls. -/
inductive Reachable : TronBoard → Prop
  | init (n m : Nat) (p1 p2 v1 v2 : Pos) (b : TronBoard)
      (hcfg : SpecValidConfig n m p1 p2 v1 v2)
      (hmk : mkTronBoard n m p1 p2 v1 v2 = some b) : Reachable b
  | step (b b' : TronBoard) (m1 m2 : Option Pos) (r : Bool)
      (hb : Reachable b) (hu : b.update m1 m2 = some (b', r)) : Reachable b'

/-- The state invariant of reachable non-terminal boards: both
positions are strictly in bounds and distinct, and the cells holding
each player's occupied mark are exactly the player positions. -/
def BoardInv (b : TronBoard) : Prop :=
  b.gameover = false →
    properPos b.n b.m b.p1 ∧ properPos b.n b.m b.p2 ∧ b.p1 ≠ b.p2 ∧
    (∀ c, b.board c = PLAYER1_POSITION ↔ c = b.p1) ∧
    (∀ c, b.board c = PLAYER2_POSITION ↔ c = b.p2)

/-- The all-empty zero-size board, used as a `getD` default. -/
def defaultTronBoard : TronBoard where
  n := 0
  m := 0
  board := fun _ => EMPTY
  gameover := false
  winner := none
  p1 := (0, 0)
  p2 := (0, 0)
  v1 := (0, 0)
  v2 := (0, 0)

/-- A finished game (terminal state, as after a head-on draw): 5×5
grid, `gameover` already true, both players still marked occupied. -/
def c2Board : TronBoard where
  n := 5
  m := 5
  board := fun c =>
    if c = ((1 : Int), (2 : Int)) then PLAYER1_POSITION
    else if c = ((3 : Int), (0 : Int)) then PLAYER2_POSITION
    else EMPTY
  gameover := true
  winner := none
  p1 := (1, 2)
  p2 := (3, 0)
  v1 := (1, 0)
  v2 := (0, 1)

/-- The board built by `TronBoard(5, 5, (1,2), (3,2), (1,0), (0,1))`. -/
def c4B : TronBoard :=
  (mkTronBoard 5 5 (1, 2) (3, 2) (1, 0) (0, 1)).getD defaultTronBoard

/-- The specification's head-on scenario: 5×5 grid, player 1 at
`(1, 2)` facing right, player 2 at `(3, 2)` facing left. -/
def c5B : TronBoard :=
  (mkTronBoard 5 5 (1, 2) (3, 2) (1, 0) (-1, 0)).getD defaultTronBoard

/-- A 6×6 board with player 2 on the right edge about to run off. -/
def c7B : TronBoard :=
  (mkTronBoard 6 6 (1, 2) (5, 5) (1, 0) (1, 0)).getD defaultTronBoard

/-- A freshly constructed 5×5 board with a specification-valid
configuration. -/
def c9B : TronBoard :=
  (mkTronBoard 5 5 (1, 2) (3, 0) (1, 0) (0, 1)).getD defaultTronBoard

/-- Two adjacent players about to swap positions: player 1 at `(1, 2)`
moving right, player 2 at `(2, 2)` moving left. -/
def c10B : TronBoard :=
  (mkTronBoard 5 5 (1, 2) (2, 2) (1, 0) (-1, 0)).getD defaultTronBoard

/-! ## General lemmas about the embedded operations -/

theorem gwrite_apply (g : Pos → Nat) (p : Pos) (v : Nat) (c : Pos) :
    gwrite g p v c = if c = p then v else g c := rfl

theorem npEff_of_nonneg (d : Nat) (i : Int) (h : 0 ≤ i) : npEff d i = i := by
  unfold npEff; omega

theorem npSet_of_nonneg (n m : Nat) (g : Pos → Nat) (p : Pos) (v : Nat)
    (h1 : 0 ≤ p.1) (h2 : 0 ≤ p.2) : npSet n m g p v = gwrite g p v := by
  unfold npSet
  rw [npEff_of_nonneg n p.1 h1, npEff_of_nonneg m p.2 h2]

theorem valid_move_aux_true_iff (n m : Nat) (g : Pos → Nat) (move : Pos) :
    valid_move_aux n m g move = true ↔
      0 ≤ move.1 ∧ move.1 < (n : Int) ∧ 0 ≤ move.2 ∧ move.2 < (m : Int) ∧
        g move = EMPTY := by
  unfold valid_move_aux
  split
  · simp only [Bool.false_eq_true, false_iff]
    omega
  · split
    · simp only [Bool.false_eq_true, false_iff]
      omega
    · simp only [beq_iff_eq]
      constructor
      · intro h; refine ⟨by omega, by omega, by omega, by omega, h⟩
      · intro h; exact h.2.2.2.2

theorem deadCheck_false_iff (n m : Nat) (g : Pos → Nat) (p : Pos) :
    deadCheck n m g p = false ↔ valid_move_aux n m g p = true := by
  unfold deadCheck
  constructor
  · intro h
    simp only [Bool.or_eq_false_iff, Bool.not_eq_false'] at h
    exact h.1
  · intro h
    have hg : g p = EMPTY := ((valid_move_aux_true_iff n m g p).mp h).2.2.2.2
    simp [h, hg]

theorem update_gameover_persists (b : TronBoard) (m1 m2 : Option Pos)
    (b' : TronBoard) (r : Bool) (hgo : b.gameover = true)
    (h : b.update m1 m2 = some (b', r)) : b'.gameover = true ∧ r = false := by
  unfold TronBoard.update at h
  simp only [] at h
  split at h
  · split at h
    · simp only [Option.some.injEq, Prod.mk.injEq] at h
      obtain ⟨hb, hr⟩ := h
      subst hb; subst hr
      exact ⟨rfl, rfl⟩
    · split at h
      · simp only [Option.some.injEq] at h
        have hb' : (b', r) = applyOutcome b
            (movePhase b.n b.m (trailGrid b) b.p1 b.p2
              (pAdd b.p1 (m1.getD b.v1)) (pAdd b.p2 (m2.getD b.v2))) := h.symm
        have hgo' : b'.gameover = goAfter b
            (movePhase b.n b.m (trailGrid b) b.p1 b.p2
              (pAdd b.p1 (m1.getD b.v1)) (pAdd b.p2 (m2.getD b.v2))) := by
          rw [show b' = ((b', r)).1 from rfl, hb']
          rfl
        have hr' : r = !(goAfter b
            (movePhase b.n b.m (trailGrid b) b.p1 b.p2
              (pAdd b.p1 (m1.getD b.v1)) (pAdd b.p2 (m2.getD b.v2)))) := by
          rw [show r = ((b', r)).2 from rfl, hb']
          rfl
        have hgoa : goAfter b
            (movePhase b.n b.m (trailGrid b) b.p1 b.p2
              (pAdd b.p1 (m1.getD b.v1)) (pAdd b.p2 (m2.getD b.v2))) = true := by
          unfold goAfter
          split
          · rfl
          · exact hgo
        rw [hgoa] at hgo' hr'
        exact ⟨hgo', by rw [hr']; rfl⟩
      · exact absurd h (by simp)
  · exact absurd h (by simp)

/-! ## Claim theorems -/

/-- C1: the direction validation of `update` is the numpy membership
test `move in VALID_VECTORS`, an elementwise any-match; the diagonal
direction `(1, 1)` passes it, so `update` does NOT raise: on a 5×5
board with player 1 at `(1, 2)` it moves player 1 diagonally to
`(2, 3)` and returns `true`, where the claim requires a rejection. -/
theorem c1_diagonal_move_accepted :
    npContains (1, 1) = true ∧
    ((mkTronBoard 5 5 (1, 2) (3, 0) (1, 0) (0, 1)).bind fun b =>
        (b.update (some (1, 1)) (some (0, 1))).map fun r => (r.1.p1, r.2)) =
      some ((2, 3), true) := by
  exact ⟨by decide, by decide⟩

/-- C3: `update` never reassigns the stored vectors `v1`/`v2`.  After
an explicit first tick with direction `(0, 1)`, a second tick with
`None` applies the ORIGINAL construction direction `(1, 0)` — player 1
ends at `(1, 1)` with `v1` still `(1, 0)` — while the claim (and the
source's own comment "the previous move is used") requires applying
`(0, 1)` and reaching `(0, 2)`. -/
theorem c3_stored_direction_never_updated :
    ((mkTronBoard 5 5 (0, 0) (4, 4) (1, 0) (0, -1)).bind fun b =>
        (b.update (some (0, 1)) (some (0, -1))).bind fun r =>
          (r.1.update none none).map fun s => (s.1.p1, s.1.v1)) =
      some ((1, 1), (1, 0)) := by
  decide

/-- C6: `valid_move` returns `true` exactly when the coordinate is
inside `[0, n) × [0, m)` and the cell there is `EMPTY`; it returns
`false` for every out-of-bounds coordinate (negative ones via the
explicit check, too-large ones via the caught `IndexError`) and for
every occupied or trail cell. -/
theorem c6_valid_move_iff (b : TronBoard) (x y : Int) :
    b.valid_move (x, y) = true ↔
      0 ≤ x ∧ x < (b.n : Int) ∧ 0 ≤ y ∧ y < (b.m : Int) ∧
        b.board (x, y) = EMPTY := by
  exact valid_move_aux_true_iff b.n b.m b.board (x, y)

/-- C2 counterexample: `update` never checks `self.gameover`.  Called
on a terminal board it proceeds as an ordinary tick: player 1 moves
from `(1, 2)` to `(2, 2)`, the old cell regresses to `VISITED1` and
the new cell becomes occupied — the grid contents and both positions
change, contradicting the claimed terminal idempotence. -/
theorem c2_terminal_update_mutates :
    c2Board.gameover = true ∧ c2Board.p1 = (1, 2) ∧
    c2Board.board (1, 2) = PLAYER1_POSITION ∧
    (c2Board.update none none).map
        (fun r => (r.1.p1, r.1.board (1, 2), r.1.board (2, 2), r.2)) =
      some ((2, 2), VISITED1, PLAYER1_POSITION, false) := by
  exact ⟨rfl, rfl, by decide, by decide⟩

/-- C2 amended: a post-terminal `update` call may mutate the grid, the
positions and the winner like an ordinary tick (no `GameAlreadyOver`
check exists), but `gameover` itself never reverts to false and the
call returns `false`. -/
theorem c2_gameover_persists (b : TronBoard) (m1 m2 : Option Pos)
    (hgo : b.gameover = true) :
    Option.all (fun x => x.1.gameover && !x.2) (b.update m1 m2) = true := by
  cases hu : b.update m1 m2 with
  | none => rfl
  | some x =>
    obtain ⟨hg, hr⟩ :=
      update_gameover_persists b m1 m2 x.1 x.2 hgo (by rw [hu])
    simp [Option.all, hg, hr]

/-- C2 witness: the amended theorem applied to the concrete terminal
board above. -/
theorem c2_gameover_persists_witness :
    Option.all (fun x => x.1.gameover && !x.2) (c2Board.update none none) = true :=
  c2_gameover_persists c2Board none none rfl

/-- C4 counterexample: the constructor validates nothing beyond
`p1 != p2`.  It accepts the non-unit directions `(1, 1)` and `(2, 7)`,
and it accepts the out-of-bounds position `(-1, 0)` — numpy wraps the
negative index, marking cell `(4, 0)` and leaving the nominal start
cell `(-1, 0)` empty — where the claim requires `InvalidConfig`. -/
theorem c4_invalid_config_accepted :
    (mkTronBoard 5 5 (1, 2) (3, 2) (1, 1) (2, 7)).isSome = true ∧
    ((mkTronBoard 5 5 (-1, 0) (3, 2) (1, 0) (0, 1)).map
        fun b => (b.board (4, 0), b.board (-1, 0))) =
      some (PLAYER1_POSITION, EMPTY) := by
  exact ⟨by decide, by decide⟩

/-- C4 amended: construction fails iff `p1 = p2` (the assert) or a
position is outside numpy's indexable range `[-dim, dim)` on either
axis (`IndexError`); directions are never validated and negative
in-range coordinates wrap.  When both positions are non-negative (so
no wrapping), the grid is all `EMPTY` except the two start cells,
marked `PLAYER1_POSITION`/`PLAYER2_POSITION`. -/
theorem c4_constructor_amended (n m : Nat) (p1 p2 v1 v2 : Pos) :
    ((mkTronBoard n m p1 p2 v1 v2).isSome = true ↔
      p1 ≠ p2 ∧ npIndexable n m p1 ∧ npIndexable n m p2) ∧
    (∀ b, mkTronBoard n m p1 p2 v1 v2 = some b →
      0 ≤ p1.1 → 0 ≤ p1.2 → 0 ≤ p2.1 → 0 ≤ p2.2 →
        b.board p1 = PLAYER1_POSITION ∧ b.board p2 = PLAYER2_POSITION ∧
        ∀ c, c ≠ p1 → c ≠ p2 → b.board c = EMPTY) := by
  constructor
  · unfold mkTronBoard
    split
    · simp_all
    · split
      · simp_all
      · simp_all
  · intro b hb h11 h12 h21 h22
    unfold mkTronBoard at hb
    split at hb
    · cases hb
    · rename_i hne
      split at hb
      · simp only [Option.some.injEq] at hb
        subst hb
        simp only
        rw [npSet_of_nonneg n m _ p2 _ h21 h22,
            npSet_of_nonneg n m _ p1 _ h11 h12]
        refine ⟨?_, ?_, ?_⟩
        · rw [gwrite_apply, if_neg hne, gwrite_apply, if_pos rfl]
        · rw [gwrite_apply, if_pos rfl]
        · intro c hc1 hc2
          rw [gwrite_apply, if_neg hc2, gwrite_apply, if_neg hc1]
      · cases hb

/-- C4 witness: the amended constructor characterisation at concrete
inputs — a configuration with absurd directions is accepted, and a
valid 5×5 construction marks exactly the two start cells. -/
theorem c4_constructor_amended_witness :
    (mkTronBoard 5 5 (0, 0) (2, 2) (7, 7) (9, 9)).isSome = true ∧
    c4B.board (1, 2) = PLAYER1_POSITION ∧
    c4B.board (3, 2) = PLAYER2_POSITION ∧
    c4B.board (0, 0) = EMPTY := by
  refine ⟨(c4_constructor_amended 5 5 (0, 0) (2, 2) (7, 7) (9, 9)).1.mpr
      (by decide), ?_⟩
  obtain ⟨h1, h2, h3⟩ :=
    (c4_constructor_amended 5 5 (1, 2) (3, 2) (1, 0) (0, 1)).2 c4B rfl
      (by decide) (by decide) (by decide) (by decide)
  exact ⟨h1, h2, h3 (0, 0) (by decide) (by decide)⟩

theorem properPos_npIndexable (n m : Nat) (p : Pos) (h : properPos n m p) :
    npIndexable n m p := by
  unfold properPos at h; unfold npIndexable; omega

theorem deadCheck_true_of_ne (n m : Nat) (g : Pos → Nat) (p : Pos)
    (h : g p ≠ EMPTY) : deadCheck n m g p = true := by
  cases hd : deadCheck n m g p
  · exact absurd (((valid_move_aux_true_iff n m g p).mp
      ((deadCheck_false_iff n m g p).mp hd)).2.2.2.2) h
  · rfl

theorem update_step (b : TronBoard) (m1 m2 : Option Pos)
    (hv1 : npContains (m1.getD b.v1) = true)
    (hv2 : npContains (m2.getD b.v2) = true)
    (hne : pAdd b.p1 (m1.getD b.v1) ≠ pAdd b.p2 (m2.getD b.v2))
    (hi1 : npIndexable b.n b.m b.p1) (hi2 : npIndexable b.n b.m b.p2) :
    b.update m1 m2 = some (applyOutcome b (movePhase b.n b.m (trailGrid b)
      b.p1 b.p2 (pAdd b.p1 (m1.getD b.v1)) (pAdd b.p2 (m2.getD b.v2)))) := by
  unfold TronBoard.update
  simp only []
  rw [if_pos (show (npContains (m1.getD b.v1) && npContains (m2.getD b.v2)) = true
        by rw [hv1, hv2]; rfl)]
  rw [if_neg hne, if_pos ⟨hi1, hi2⟩]

theorem trailGrid_eq (b : TronBoard)
    (hb1 : properPos b.n b.m b.p1) (hb2 : properPos b.n b.m b.p2) :
    trailGrid b = gwrite (gwrite b.board b.p1 VISITED1) b.p2 VISITED2 := by
  unfold trailGrid
  rw [npSet_of_nonneg b.n b.m b.board b.p1 VISITED1 hb1.1 hb1.2.2.1]
  rw [npSet_of_nonneg b.n b.m _ b.p2 VISITED2 hb2.1 hb2.2.2.1]

/-- C5: when validation passes and the two candidate next positions
coincide, `update` only sets `gameover := true` and `winner := None`
and returns `false`: the grid and both positions (and everything else)
are untouched. -/
theorem c5_head_on_draw (b : TronBoard) (m1 m2 : Option Pos)
    (hgo : b.gameover = false)
    (hv1 : npContains (m1.getD b.v1) = true)
    (hv2 : npContains (m2.getD b.v2) = true)
    (heq : pAdd b.p1 (m1.getD b.v1) = pAdd b.p2 (m2.getD b.v2)) :
    b.update m1 m2 = some ({ b with gameover := true, winner := none }, false) := by
  unfold TronBoard.update
  simp only []
  rw [if_pos (show (npContains (m1.getD b.v1) && npContains (m2.getD b.v2)) = true
        by rw [hv1, hv2]; rfl)]
  rw [if_pos heq]

/-- C5 witness: the specification's 5×5 scenario — player 1 at
`(1, 2)` facing right, player 2 at `(3, 2)` facing left, one tick
with both directions carried forward ends in a draw at `(2, 2)`. -/
theorem c5_head_on_draw_witness :
    c5B.gameover = false ∧
    c5B.update none none =
      some ({ c5B with gameover := true, winner := none }, false) ∧
    (c5B.update none none).map
        (fun r => (r.1.gameover, r.1.winner, r.1.p1, r.1.p2, r.2)) =
      some (true, none, ((1 : Int), (2 : Int)), ((3 : Int), (2 : Int)), false) := by
  have h := c5_head_on_draw c5B none none rfl (by decide) (by decide) (by decide)
  exact ⟨rfl, h, by rw [h]; rfl⟩

/-- C10: a swap attempt (each player's candidate cell is the other's
pre-update position) is not a head-on collision; both destination
cells were just marked as trail, so both moves are rejected, both
players die in place, and the tick ends with `gameover = true` and
`winner = None`, returning `false`. -/
theorem c10_swap_both_die (b : TronBoard) (m1 m2 : Option Pos)
    (hgo : b.gameover = false)
    (hb1 : properPos b.n b.m b.p1) (hb2 : properPos b.n b.m b.p2)
    (hne : b.p1 ≠ b.p2)
    (hv1 : npContains (m1.getD b.v1) = true)
    (hv2 : npContains (m2.getD b.v2) = true)
    (hs1 : pAdd b.p1 (m1.getD b.v1) = b.p2)
    (hs2 : pAdd b.p2 (m2.getD b.v2) = b.p1) :
    b.update m1 m2 =
      some ({ b with board := trailGrid b, gameover := true, winner := none },
        false) ∧
    trailGrid b b.p1 = VISITED1 ∧ trailGrid b b.p2 = VISITED2 := by
  have hcol : pAdd b.p1 (m1.getD b.v1) ≠ pAdd b.p2 (m2.getD b.v2) := by
    rw [hs1, hs2]; exact fun hh => hne hh.symm
  have hg0 := trailGrid_eq b hb1 hb2
  have ht1 : trailGrid b b.p1 = VISITED1 := by
    rw [hg0, gwrite_apply, if_neg hne, gwrite_apply, if_pos rfl]
  have ht2 : trailGrid b b.p2 = VISITED2 := by
    rw [hg0, gwrite_apply, if_pos rfl]
  have hd1 : deadCheck b.n b.m (trailGrid b) (pAdd b.p1 (m1.getD b.v1)) = true := by
    apply deadCheck_true_of_ne
    rw [hs1, ht2]; decide
  have hd2 : deadCheck b.n b.m (trailGrid b) (pAdd b.p2 (m2.getD b.v2)) = true := by
    apply deadCheck_true_of_ne
    rw [hs2, ht1]; decide
  have ho : movePhase b.n b.m (trailGrid b) b.p1 b.p2
      (pAdd b.p1 (m1.getD b.v1)) (pAdd b.p2 (m2.getD b.v2)) =
      { grid := trailGrid b, q1 := b.p1, q2 := b.p2, d1 := true, d2 := true } := by
    unfold movePhase
    simp only [hd1, if_true, hd2]
  refine ⟨?_, ht1, ht2⟩
  rw [update_step b m1 m2 hv1 hv2 hcol (properPos_npIndexable _ _ _ hb1)
      (properPos_npIndexable _ _ _ hb2), ho]
  rfl

/-- C10 witness: adjacent players at `(1, 2)` and `(2, 2)` moving
through each other; both die, the draw is recorded, and the vacated
cells are trails. -/
theorem c10_swap_both_die_witness :
    c10B.update none none =
      some ({ c10B with board := trailGrid c10B, gameover := true,
                        winner := none },
        false) ∧
    trailGrid c10B c10B.p1 = VISITED1 ∧ trailGrid c10B c10B.p2 = VISITED2 :=
  c10_swap_both_die c10B none none rfl (by decide) (by decide) (by decide)
    (by decide) (by decide) (by decide) (by decide)

/-- C7: in a non-terminal tick that passes validation and is not a
head-on collision, the outcome is determined by the two death flags of
the move phase: `gameover` becomes their disjunction (both dead →
draw with `winner = None`; exactly one dead → the survivor wins;
neither dead → the game continues with `gameover` still false), and
the call returns `true` exactly when `gameover` is still false. -/
theorem c7_winner_determination (b : TronBoard) (m1 m2 : Option Pos)
    (hgo : b.gameover = false)
    (hb1 : properPos b.n b.m b.p1) (hb2 : properPos b.n b.m b.p2)
    (hv1 : npContains (m1.getD b.v1) = true)
    (hv2 : npContains (m2.getD b.v2) = true)
    (hne : pAdd b.p1 (m1.getD b.v1) ≠ pAdd b.p2 (m2.getD b.v2)) :
    ∃ o : MoveOutcome, b.update m1 m2 = some (applyOutcome b o) ∧
      o = movePhase b.n b.m (trailGrid b) b.p1 b.p2
            (pAdd b.p1 (m1.getD b.v1)) (pAdd b.p2 (m2.getD b.v2)) ∧
      (applyOutcome b o).1.gameover = (o.d1 || o.d2) ∧
      (applyOutcome b o).1.winner =
        (if o.d1 && o.d2 then none
         else if o.d1 then some 2
         else if o.d2 then some 1 else b.winner) ∧
      ((applyOutcome b o).2 = true ↔ (applyOutcome b o).1.gameover = false) := by
  refine ⟨movePhase b.n b.m (trailGrid b) b.p1 b.p2
      (pAdd b.p1 (m1.getD b.v1)) (pAdd b.p2 (m2.getD b.v2)),
    update_step b m1 m2 hv1 hv2 hne (properPos_npIndexable _ _ _ hb1)
      (properPos_npIndexable _ _ _ hb2), rfl, ?_, ?_, ?_⟩
  · show goAfter b _ = _
    unfold goAfter
    split
    · simp_all
    · simp_all
  · show winnerAfter b _ = _
    unfold winnerAfter
    cases (movePhase b.n b.m (trailGrid b) b.p1 b.p2
        (pAdd b.p1 (m1.getD b.v1)) (pAdd b.p2 (m2.getD b.v2))).d1 <;>
      cases (movePhase b.n b.m (trailGrid b) b.p1 b.p2
        (pAdd b.p1 (m1.getD b.v1)) (pAdd b.p2 (m2.getD b.v2))).d2 <;> simp
  · show (!(goAfter b _)) = true ↔ goAfter b _ = false
    simp

/-- C7 witness: a 6×6 board where player 2, on the edge cell `(5, 5)`
moving right, runs off the grid while player 1 survives. -/
theorem c7_winner_determination_witness :
    properPos 6 6 ((5 : Int), (5 : Int)) ∧
    (∃ o : MoveOutcome, c7B.update none none = some (applyOutcome c7B o)) := by
  have h := c7_winner_determination c7B none none rfl (by decide) (by decide)
    (by decide) (by decide) (by decide)
  exact ⟨by decide, h.choose, h.choose_spec.1⟩

theorem deadCheck_congr (n m : Nat) (g g' : Pos → Nat) (p : Pos)
    (h : g p = g' p) : deadCheck n m g p = deadCheck n m g' p := by
  unfold deadCheck valid_move_aux
  rw [h]

/-- C8: the source evaluates player 1's move first and writes its
accepted destination before player 2's death test, but because the
head-on branch already excluded `p1n = p2n`, this sequential
evaluation produces exactly the same grid, positions and death flags
as evaluating both players independently against the trail-marked
grid, as the specification words it. -/
theorem c8_sequential_eq_simultaneous (n m : Nat) (g0 : Pos → Nat)
    (p1 p2 p1n p2n : Pos) (hne : p1n ≠ p2n) :
    movePhase n m g0 p1 p2 p1n p2n = movePhaseSpec n m g0 p1 p2 p1n p2n := by
  have hkey : deadCheck n m
      (if deadCheck n m g0 p1n then g0 else npSet n m g0 p1n PLAYER1_POSITION)
      p2n = deadCheck n m g0 p2n := by
    cases hd : deadCheck n m g0 p1n
    · simp only [Bool.false_eq_true, if_false]
      apply deadCheck_congr
      have hb := (valid_move_aux_true_iff n m g0 p1n).mp
        ((deadCheck_false_iff n m g0 p1n).mp hd)
      rw [npSet_of_nonneg n m g0 p1n _ hb.1 hb.2.2.1, gwrite_apply,
        if_neg (Ne.symm hne)]
    · simp
  unfold movePhase movePhaseSpec
  simp only [hkey]

/-- C8 witness: the equivalence at a concrete empty 5×5 grid with
distinct candidate destinations. -/
theorem c8_sequential_eq_simultaneous_witness :
    movePhase 5 5 (fun _ => EMPTY) (0, 0) (4, 4) (1, 1) (2, 2) =
      movePhaseSpec 5 5 (fun _ => EMPTY) (0, 0) (4, 4) (1, 1) (2, 2) :=
  c8_sequential_eq_simultaneous 5 5 (fun _ => EMPTY) (0, 0) (4, 4) (1, 1) (2, 2)
    (by decide)

theorem mkTronBoard_eq (n m : Nat) (p1 p2 v1 v2 : Pos) (b : TronBoard)
    (hb : mkTronBoard n m p1 p2 v1 v2 = some b) :
    p1 ≠ p2 ∧ npIndexable n m p1 ∧ npIndexable n m p2 ∧
    b = { n := n, m := m,
          board := npSet n m (npSet n m (fun _ => EMPTY) p1 PLAYER1_POSITION)
                     p2 PLAYER2_POSITION,
          gameover := false, winner := none,
          p1 := p1, p2 := p2, v1 := v1, v2 := v2 } := by
  unfold mkTronBoard at hb
  split at hb
  · cases hb
  · rename_i hne
    split at hb
    · rename_i hidx
      simp only [Option.some.injEq] at hb
      exact ⟨hne, hidx.1, hidx.2, hb.symm⟩
    · cases hb

theorem gwrite_eq_val_iff (g : Pos → Nat) (p : Pos) (v t : Nat) (c : Pos) :
    gwrite g p v c = t ↔ (c = p ∧ v = t) ∨ (c ≠ p ∧ g c = t) := by
  unfold gwrite
  by_cases h : c = p <;> simp [h]

theorem BoardInv_init (n m : Nat) (p1 p2 v1 v2 : Pos) (b : TronBoard)
    (hcfg : SpecValidConfig n m p1 p2 v1 v2)
    (hmk : mkTronBoard n m p1 p2 v1 v2 = some b) : BoardInv b := by
  obtain ⟨hne, hp1, hp2, _, _⟩ := hcfg
  obtain ⟨_, _, _, hbe⟩ := mkTronBoard_eq n m p1 p2 v1 v2 b hmk
  subst hbe
  intro _
  have hg : npSet n m (npSet n m (fun _ => EMPTY) p1 PLAYER1_POSITION) p2
      PLAYER2_POSITION =
      gwrite (gwrite (fun _ => EMPTY) p1 PLAYER1_POSITION) p2 PLAYER2_POSITION := by
    rw [npSet_of_nonneg n m _ p2 _ hp2.1 hp2.2.2.1,
        npSet_of_nonneg n m _ p1 _ hp1.1 hp1.2.2.1]
  refine ⟨hp1, hp2, hne, ?_, ?_⟩
  · intro c
    show (npSet n m (npSet n m (fun _ => EMPTY) p1 PLAYER1_POSITION) p2
        PLAYER2_POSITION) c = PLAYER1_POSITION ↔ c = p1
    rw [hg, gwrite_eq_val_iff, gwrite_eq_val_iff]
    constructor
    · rintro (⟨_, hv⟩ | ⟨_, ⟨_, hv⟩ | ⟨_, hv⟩⟩)
      · exact absurd hv (by decide)
      · assumption
      · exact absurd hv (by decide)
    · intro h
      exact Or.inr ⟨fun hcc => hne (h.symm.trans hcc), Or.inl ⟨h, rfl⟩⟩
  · intro c
    show (npSet n m (npSet n m (fun _ => EMPTY) p1 PLAYER1_POSITION) p2
        PLAYER2_POSITION) c = PLAYER2_POSITION ↔ c = p2
    rw [hg, gwrite_eq_val_iff, gwrite_eq_val_iff]
    constructor
    · rintro (⟨hc, _⟩ | ⟨_, ⟨_, hv⟩ | ⟨_, hv⟩⟩)
      · assumption
      · exact absurd hv (by decide)
      · exact absurd hv (by decide)
    · intro h
      exact Or.inl ⟨h, rfl⟩

theorem movePhase_survivors (n m : Nat) (g0 : Pos → Nat) (p1 p2 p1n p2n : Pos)
    (hd1 : (movePhase n m g0 p1 p2 p1n p2n).d1 = false)
    (hd2 : (movePhase n m g0 p1 p2 p1n p2n).d2 = false) :
    (movePhase n m g0 p1 p2 p1n p2n).q1 = p1n ∧
    (movePhase n m g0 p1 p2 p1n p2n).q2 = p2n ∧
    (movePhase n m g0 p1 p2 p1n p2n).grid =
      gwrite (gwrite g0 p1n PLAYER1_POSITION) p2n PLAYER2_POSITION ∧
    properPos n m p1n ∧ properPos n m p2n ∧ g0 p1n = EMPTY := by
  have e1 : (movePhase n m g0 p1 p2 p1n p2n).d1 = deadCheck n m g0 p1n := rfl
  rw [e1] at hd1
  have hb1 := (valid_move_aux_true_iff n m g0 p1n).mp
    ((deadCheck_false_iff n m g0 p1n).mp hd1)
  have hgw1 : npSet n m g0 p1n PLAYER1_POSITION = gwrite g0 p1n PLAYER1_POSITION :=
    npSet_of_nonneg n m g0 p1n _ hb1.1 hb1.2.2.1
  have e2 : (movePhase n m g0 p1 p2 p1n p2n).d2 =
      deadCheck n m (if deadCheck n m g0 p1n then g0
        else npSet n m g0 p1n PLAYER1_POSITION) p2n := rfl
  rw [e2, hd1] at hd2
  simp only [Bool.false_eq_true, if_false, hgw1] at hd2
  have hb2 := (valid_move_aux_true_iff n m (gwrite g0 p1n PLAYER1_POSITION) p2n).mp
    ((deadCheck_false_iff n m _ p2n).mp hd2)
  refine ⟨?_, ?_, ?_, ⟨hb1.1, hb1.2.1, hb1.2.2.1, hb1.2.2.2.1⟩,
    ⟨hb2.1, hb2.2.1, hb2.2.2.1, hb2.2.2.2.1⟩, hb1.2.2.2.2⟩
  · show (if deadCheck n m g0 p1n then p1 else p1n) = p1n
    rw [hd1]
    simp
  · show (if deadCheck n m (if deadCheck n m g0 p1n then g0
        else npSet n m g0 p1n PLAYER1_POSITION) p2n then p2 else p2n) = p2n
    rw [hd1]
    simp only [Bool.false_eq_true, if_false, hgw1]
    rw [hd2]
    simp
  · show (if deadCheck n m (if deadCheck n m g0 p1n then g0
          else npSet n m g0 p1n PLAYER1_POSITION) p2n
        then (if deadCheck n m g0 p1n then g0 else npSet n m g0 p1n PLAYER1_POSITION)
        else npSet n m (if deadCheck n m g0 p1n then g0
          else npSet n m g0 p1n PLAYER1_POSITION) p2n PLAYER2_POSITION) =
      gwrite (gwrite g0 p1n PLAYER1_POSITION) p2n PLAYER2_POSITION
    rw [hd1]
    simp only [Bool.false_eq_true, if_false, hgw1]
    rw [hd2]
    simp only [Bool.false_eq_true, if_false]
    exact npSet_of_nonneg n m _ p2n _ hb2.1 hb2.2.2.1

theorem goAfter_false (b : TronBoard) (o : MoveOutcome)
    (h : goAfter b o = false) :
    o.d1 = false ∧ o.d2 = false ∧ b.gameover = false := by
  unfold goAfter at h
  split at h
  · cases h
  · rename_i hor
    simp only [Bool.or_eq_true, not_or, Bool.not_eq_true] at hor
    exact ⟨hor.1, hor.2, h⟩

theorem winnerAfter_no_deaths (b : TronBoard) (o : MoveOutcome)
    (h1 : o.d1 = false) (h2 : o.d2 = false) : winnerAfter b o = b.winner := by
  unfold winnerAfter
  rw [h1, h2]
  simp

theorem BoardInv_step (b b' : TronBoard) (m1 m2 : Option Pos) (r : Bool)
    (hinv : BoardInv b) (hu : b.update m1 m2 = some (b', r)) : BoardInv b' := by
  intro hgo'
  unfold TronBoard.update at hu
  simp only [] at hu
  split at hu
  · split at hu
    · -- head-on branch: the new state is terminal, contradicting hgo'
      simp only [Option.some.injEq, Prod.mk.injEq] at hu
      obtain ⟨hb', _⟩ := hu
      rw [← hb'] at hgo'
      simp at hgo'
    · rename_i hcol
      split at hu
      · -- move branch
        simp only [Option.some.injEq] at hu
        have hb' : (applyOutcome b (movePhase b.n b.m (trailGrid b) b.p1 b.p2
            (pAdd b.p1 (m1.getD b.v1)) (pAdd b.p2 (m2.getD b.v2)))).1 = b' :=
          congrArg Prod.fst hu
        have hgof : goAfter b (movePhase b.n b.m (trailGrid b) b.p1 b.p2
            (pAdd b.p1 (m1.getD b.v1)) (pAdd b.p2 (m2.getD b.v2))) = false := by
          rw [← hb'] at hgo'
          exact hgo'
        have hd12 := goAfter_false b (movePhase b.n b.m (trailGrid b) b.p1 b.p2
          (pAdd b.p1 (m1.getD b.v1)) (pAdd b.p2 (m2.getD b.v2))) hgof
        obtain ⟨hp1, hp2, hpne, hg1, hg2⟩ := hinv hd12.2.2
        obtain ⟨hq1, hq2, hgrid, hpp1n, hpp2n, hg0p1n⟩ :=
          movePhase_survivors b.n b.m (trailGrid b) b.p1 b.p2
            (pAdd b.p1 (m1.getD b.v1)) (pAdd b.p2 (m2.getD b.v2)) hd12.1 hd12.2.1
        have hwin := winnerAfter_no_deaths b (movePhase b.n b.m (trailGrid b)
          b.p1 b.p2 (pAdd b.p1 (m1.getD b.v1)) (pAdd b.p2 (m2.getD b.v2)))
          hd12.1 hd12.2.1
        have hbeq : b' = { b with
            board := gwrite (gwrite (trailGrid b) (pAdd b.p1 (m1.getD b.v1))
              PLAYER1_POSITION) (pAdd b.p2 (m2.getD b.v2)) PLAYER2_POSITION,
            p1 := pAdd b.p1 (m1.getD b.v1), p2 := pAdd b.p2 (m2.getD b.v2),
            gameover := false, winner := b.winner } := by
          rw [← hb']
          unfold applyOutcome
          simp only [hgrid, hq1, hq2, hgof, hwin]
        subst hbeq
        have htg := trailGrid_eq b hp1 hp2
        refine ⟨hpp1n, hpp2n, hcol, ?_, ?_⟩
        · intro c
          show gwrite (gwrite (trailGrid b) (pAdd b.p1 (m1.getD b.v1))
              PLAYER1_POSITION) (pAdd b.p2 (m2.getD b.v2)) PLAYER2_POSITION c =
              PLAYER1_POSITION ↔ c = pAdd b.p1 (m1.getD b.v1)
          rw [gwrite_eq_val_iff, gwrite_eq_val_iff]
          constructor
          · rintro (⟨_, hv⟩ | ⟨_, ⟨h1, _⟩ | ⟨_, htr⟩⟩)
            · exact absurd hv (by decide)
            · exact h1
            · rw [htg, gwrite_eq_val_iff, gwrite_eq_val_iff] at htr
              rcases htr with ⟨_, hv⟩ | ⟨_, ⟨_, hv⟩ | ⟨hcp1, hbv⟩⟩
              · exact absurd hv (by decide)
              · exact absurd hv (by decide)
              · exact absurd ((hg1 c).mp hbv) hcp1
          · intro h
            exact Or.inr ⟨fun hcc => hcol (h.symm.trans hcc), Or.inl ⟨h, rfl⟩⟩
        · intro c
          show gwrite (gwrite (trailGrid b) (pAdd b.p1 (m1.getD b.v1))
              PLAYER1_POSITION) (pAdd b.p2 (m2.getD b.v2)) PLAYER2_POSITION c =
              PLAYER2_POSITION ↔ c = pAdd b.p2 (m2.getD b.v2)
          rw [gwrite_eq_val_iff, gwrite_eq_val_iff]
          constructor
          · rintro (⟨hc, _⟩ | ⟨_, ⟨_, hv⟩ | ⟨_, htr⟩⟩)
            · exact hc
            · exact absurd hv (by decide)
            · rw [htg, gwrite_eq_val_iff, gwrite_eq_val_iff] at htr
              rcases htr with ⟨_, hv⟩ | ⟨hcp2, ⟨_, hv⟩ | ⟨_, hbv⟩⟩
              · exact absurd hv (by decide)
              · exact absurd hv (by decide)
              · exact absurd ((hg2 c).mp hbv) hcp2
          · intro h
            exact Or.inl ⟨h, rfl⟩
      · cases hu
  · cases hu

theorem gwrite_ne_empty (g : Pos → Nat) (p : Pos) (v : Nat) (c : Pos)
    (hv : v ≠ EMPTY) (hc : g c ≠ EMPTY) : gwrite g p v c ≠ EMPTY := by
  unfold gwrite
  split
  · exact hv
  · exact hc

theorem npSet_ne_empty (n m : Nat) (g : Pos → Nat) (p : Pos) (v : Nat) (c : Pos)
    (hv : v ≠ EMPTY) (hc : g c ≠ EMPTY) : npSet n m g p v c ≠ EMPTY :=
  gwrite_ne_empty g _ v c hv hc

theorem trailGrid_ne_empty (b : TronBoard) (c : Pos)
    (hc : b.board c ≠ EMPTY) : trailGrid b c ≠ EMPTY :=
  npSet_ne_empty b.n b.m _ b.p2 VISITED2 c (by decide)
    (npSet_ne_empty b.n b.m b.board b.p1 VISITED1 c (by decide) hc)

theorem movePhase_grid_ne_empty (n m : Nat) (g0 : Pos → Nat)
    (p1 p2 p1n p2n : Pos) (c : Pos) (hc : g0 c ≠ EMPTY) :
    (movePhase n m g0 p1 p2 p1n p2n).grid c ≠ EMPTY := by
  have houter : ∀ g1 : Pos → Nat, g1 c ≠ EMPTY →
      (if deadCheck n m g1 p2n then g1
       else npSet n m g1 p2n PLAYER2_POSITION) c ≠ EMPTY := by
    intro g1 h
    split
    · exact h
    · exact npSet_ne_empty n m g1 p2n PLAYER2_POSITION c (by decide) h
  have hg1c : (if deadCheck n m g0 p1n then g0
      else npSet n m g0 p1n PLAYER1_POSITION) c ≠ EMPTY := by
    split
    · exact hc
    · exact npSet_ne_empty n m g0 p1n PLAYER1_POSITION c (by decide) hc
  exact houter (if deadCheck n m g0 p1n then g0
    else npSet n m g0 p1n PLAYER1_POSITION) hg1c

theorem update_no_regress (b : TronBoard) (m1 m2 : Option Pos)
    (b' : TronBoard) (r : Bool) (hu : b.update m1 m2 = some (b', r))
    (c : Pos) (hc : b.board c ≠ EMPTY) : b'.board c ≠ EMPTY := by
  unfold TronBoard.update at hu
  simp only [] at hu
  split at hu
  · split at hu
    · simp only [Option.some.injEq, Prod.mk.injEq] at hu
      obtain ⟨hb', _⟩ := hu
      rw [← hb']
      exact hc
    · split at hu
      · simp only [Option.some.injEq] at hu
        have hb' : (applyOutcome b (movePhase b.n b.m (trailGrid b) b.p1 b.p2
            (pAdd b.p1 (m1.getD b.v1)) (pAdd b.p2 (m2.getD b.v2)))).1 = b' :=
          congrArg Prod.fst hu
        rw [← hb']
        exact movePhase_grid_ne_empty b.n b.m (trailGrid b) b.p1 b.p2 _ _ c
          (trailGrid_ne_empty b c hc)
      · cases hu
  · cases hu

/-- C9: on every board reachable from a specification-valid
construction by non-raising `update` calls, whenever the game is not
over there is exactly one `PLAYER1_POSITION` cell and exactly one
`PLAYER2_POSITION` cell; and across any further successful `update`,
no non-`EMPTY` cell ever becomes `EMPTY` again. -/
theorem c9_reachable_invariants (b : TronBoard) (hb : Reachable b) :
    (b.gameover = false →
      (∃! c, b.board c = PLAYER1_POSITION) ∧
      (∃! c, b.board c = PLAYER2_POSITION)) ∧
    (∀ m1 m2 b' r, b.update m1 m2 = some (b', r) →
      ∀ c, b.board c ≠ EMPTY → b'.board c ≠ EMPTY) := by
  have hinv : BoardInv b := by
    induction hb with
    | init n m p1 p2 v1 v2 b hcfg hmk => exact BoardInv_init n m p1 p2 v1 v2 b hcfg hmk
    | step b b' m1 m2 r hb hu ih => exact BoardInv_step b b' m1 m2 r ih hu
  constructor
  · intro hgo
    obtain ⟨_, _, _, hg1, hg2⟩ := hinv hgo
    exact ⟨⟨b.p1, (hg1 b.p1).mpr rfl, fun c hc => (hg1 c).mp hc⟩,
           ⟨b.p2, (hg2 b.p2).mpr rfl, fun c hc => (hg2 c).mp hc⟩⟩
  · intro m1 m2 b' r hu c hc
    exact update_no_regress b m1 m2 b' r hu c hc

/-- C9 witness: the invariant theorem applied to the freshly
constructed valid 5×5 board. -/
theorem c9_reachable_invariants_witness :
    (c9B.gameover = false →
      (∃! c, c9B.board c = PLAYER1_POSITION) ∧
      (∃! c, c9B.board c = PLAYER2_POSITION)) ∧
    (∀ m1 m2 b' r, c9B.update m1 m2 = some (b', r) →
      ∀ c, c9B.board c ≠ EMPTY → b'.board c ≠ EMPTY) :=
  c9_reachable_invariants c9B
    (Reachable.init 5 5 (1, 2) (3, 0) (1, 0) (0, 1) c9B (by decide) rfl)

